import Mathlib

/-!
Shallow embedding of `netbox/dcim/monitoring.py`: the severity constants, the
`MonitoringResults` log (bucketed messages, `log`, `get_worst_message`,
`__add__`, `get_messages`, `get_all_messages`), the `Monitoring` module base
class (`__init__`, the `log_*` helpers, `run`) and the aggregator `get`.
Mutation in the Python source is modelled by explicit state passing; the
in-place list mutation performed by `__add__` is additionally modelled on an
explicit store of list references to reason about frame effects.
-/

namespace monitoring

/-- Modelled from the spec: the source imports `LOG_DEFAULT`, `LOG_OK`,
`LOG_INFO`, `LOG_WARNING`, `LOG_FAILURE` from `dcim.constants`, a file that is
not part of the given source tree. The spec fixes them as a totally ordered
enumeration, from lowest to highest precedence: DEFAULT, OK, INFO, WARNING,
FAILURE. We model them as an enumeration with that strict order on `val`. -/
inductive LogLevel where
  | default
  | ok
  | info
  | warning
  | failure
deriving DecidableEq, Repr, Fintype

/-- Modelled from the spec: the numeric sort key of a level; only the strict
order DEFAULT < OK < INFO < WARNING < FAILURE is fixed by the spec. -/
def LogLevel.val : LogLevel → Nat
  | .default => 0
  | .ok => 1
  | .info => 2
  | .warning => 3
  | .failure => 4

abbrev LOG_DEFAULT : LogLevel := LogLevel.default

abbrev LOG_OK : LogLevel := LogLevel.ok

abbrev LOG_INFO : LogLevel := LogLevel.info

abbrev LOG_WARNING : LogLevel := LogLevel.warning

abbrev LOG_FAILURE : LogLevel := LogLevel.failure

/-- Insertion order of the keys of the `self.logs` dict built in
`MonitoringResults.__init__`: DEFAULT, OK, INFO, WARNING, FAILURE. Python
dicts iterate in insertion order, which `get_all_messages` and `__add__`
rely on. -/
def levelKeys : List LogLevel := [LOG_DEFAULT, LOG_OK, LOG_INFO, LOG_WARNING, LOG_FAILURE]

/-- A `MonitoringMessage(level, message)` from the source. -/
structure MonitoringMessage where
  level : LogLevel
  message : String
deriving DecidableEq, Repr

/-- The `MonitoringResults` object: its `logs` dict. Every instance built by
`__init__` has exactly the five standard severity keys, and `__add__` between
two such instances never adds a key, so the dict is modelled as a total
function from `LogLevel` to the message list of that bucket. -/
structure MonitoringResults where
  logs : LogLevel → List String

/-- `MonitoringResults.__init__`: every bucket starts empty. -/
def MonitoringResults.init : MonitoringResults := ⟨fun _ => []⟩

/-- `MonitoringResults.log(level, message)`: `self.logs[level].append(message)`. -/
def MonitoringResults.log (self : MonitoringResults) (level : LogLevel) (message : String) :
    MonitoringResults :=
  ⟨fun k => if k = level then self.logs k ++ [message] else self.logs k⟩

/-- `MonitoringResults.get_worst_message()`: the if-chain from the source,
checking FAILURE, WARNING, INFO, OK, DEFAULT in that order and returning the
first element (`[0]`) of the first non-empty bucket, with the fallback
`MonitoringMessage(LOG_DEFAULT, "")`. -/
def MonitoringResults.get_worst_message (self : MonitoringResults) : MonitoringMessage :=
  match self.logs LOG_FAILURE with
  | m :: _ => ⟨LOG_FAILURE, m⟩
  | [] =>
    match self.logs LOG_WARNING with
    | m :: _ => ⟨LOG_WARNING, m⟩
    | [] =>
      match self.logs LOG_INFO with
      | m :: _ => ⟨LOG_INFO, m⟩
      | [] =>
        match self.logs LOG_OK with
        | m :: _ => ⟨LOG_OK, m⟩
        | [] =>
          match self.logs LOG_DEFAULT with
          | m :: _ => ⟨LOG_DEFAULT, m⟩
          | [] => ⟨LOG_DEFAULT, ""⟩

/-- A Python value that may be passed to `MonitoringResults.__add__`:
an int, a string, `None`, or another `MonitoringResults`. -/
inductive PyValue where
  | int (n : Int)
  | str (s : String)
  | none
  | results (r : MonitoringResults)

/-- Python exceptions raised by the code under study. -/
inductive PyError where
  | valueError
  | notImplementedError
  | runtimeError (msg : String)
deriving DecidableEq, Repr

/-- `MonitoringResults.__add__(other)`: `other == 0` returns `self` untouched;
a value that is not a `MonitoringResults` raises `ValueError`; otherwise every
bucket of `other` is appended to the corresponding bucket of `self` (both
dicts carry exactly the five standard keys, so the `key in self.logs` test is
always true) and the mutated `self` is returned. Only the Python `int 0`
compares equal to the literal `0` among the modelled values. -/
def MonitoringResults.add (self : MonitoringResults) : PyValue → Except PyError MonitoringResults
  | .int n => if n = 0 then .ok self else .error .valueError
  | .str _ => .error .valueError
  | .none => .error .valueError
  | .results other => .ok ⟨fun k => self.logs k ++ other.logs k⟩

/-- The effect of `__add__` on an actual `MonitoringResults` argument:
bucket-wise concatenation, self first. -/
def MonitoringResults.combine (a b : MonitoringResults) : MonitoringResults :=
  ⟨fun k => a.logs k ++ b.logs k⟩

/-- `MonitoringResults.get_messages(level)`: `return self.logs[level]`. -/
def MonitoringResults.get_messages (self : MonitoringResults) (level : LogLevel) : List String :=
  self.logs level

/-- Stable insertion of a message into a list sorted by descending level: the
message goes after every element whose level is greater than or equal to its
own, which is exactly where a stable descending sort keeps an element that
occurred later in the input. -/
def insertDesc (x : MonitoringMessage) : List MonitoringMessage → List MonitoringMessage
  | [] => [x]
  | y :: ys => if y.level.val ≤ x.level.val then x :: y :: ys else y :: insertDesc x ys

/-- Stable sort by descending level, modelling Python's stable
`list.sort(key=lambda m: m.level, reverse=True)`. -/
def isortDesc : List MonitoringMessage → List MonitoringMessage
  | [] => []
  | x :: xs => insertDesc x (isortDesc xs)

/-- `MonitoringResults.get_all_messages()`: flatten the buckets in dict
insertion order, tag each text with its level, then stable-sort by level in
reverse (descending) order. -/
def MonitoringResults.get_all_messages (self : MonitoringResults) : List MonitoringMessage :=
  isortDesc (levelKeys.flatMap fun level => (self.logs level).map fun message => ⟨level, message⟩)

/-- The `Monitoring` base class state set up by `Monitoring.__init__`:
`active_test`, `failed` and the private results log `_results`. -/
structure Monitoring where
  active_test : Option String
  failed : Bool
  _results : MonitoringResults

/-- `Monitoring.__init__`: `active_test = None`, `failed = False`, fresh
`MonitoringResults`. -/
def Monitoring.init : Monitoring :=
  { active_test := none, failed := false, _results := MonitoringResults.init }

/-- `Monitoring.log_default(message)`. -/
def Monitoring.log_default (m : Monitoring) (message : String) : Monitoring :=
  { m with _results := m._results.log LOG_DEFAULT message }

/-- `Monitoring.log_ok(message)`. -/
def Monitoring.log_ok (m : Monitoring) (message : String) : Monitoring :=
  { m with _results := m._results.log LOG_OK message }

/-- `Monitoring.log_info(message)`. -/
def Monitoring.log_info (m : Monitoring) (message : String) : Monitoring :=
  { m with _results := m._results.log LOG_INFO message }

/-- `Monitoring.log_warning(message)`. -/
def Monitoring.log_warning (m : Monitoring) (message : String) : Monitoring :=
  { m with _results := m._results.log LOG_WARNING message }

/-- `Monitoring.log_failure(message)`: the source body is the single line
`self._results.log(LOG_FAILURE, message)`. It does not assign `self.failed`,
although its docstring says calling it automatically marks the report as
failed. -/
def Monitoring.log_failure (m : Monitoring) (message : String) : Monitoring :=
  { m with _results := m._results.log LOG_FAILURE message }

/-- Replay a sequence of `MonitoringResults.log` calls. -/
def applyLogs (r : MonitoringResults) (calls : List (LogLevel × String)) : MonitoringResults :=
  calls.foldl (fun acc c => acc.log c.1 c.2) r

/-- `Monitoring.run(device)`: calls the subclass-provided `get(device)` exactly
once and then returns `self._results`. The subclass `get` is modelled as the
sequence of `log` calls it performs on the instance (or the exception it
raises); an exception propagates out of `run` unhandled, and `run` never
resets `_results`. The returned log is the instance's own `_results` field. -/
def Monitoring.run {Device : Type} (m : Monitoring)
    (getImpl : Device → Except PyError (List (LogLevel × String))) (device : Device) :
    Except PyError (Monitoring × MonitoringResults) :=
  match getImpl device with
  | .error e => .error e
  | .ok calls =>
    let m2 := { m with _results := applyLogs m._results calls }
    .ok (m2, m2._results)

/-- Loop body of the aggregator `get(device)`:
`for module in modules: results += module.run(device)`. A module is modelled
by what its `run(device)` returns (a results log or an exception). -/
def getGo {Device : Type} :
    List (Device → Except PyError MonitoringResults) → Device → MonitoringResults →
      Except PyError MonitoringResults
  | [], _, results => .ok results
  | module :: rest, device, results =>
    match module device with
    | .error e => .error e
    | .ok r =>
      match results.add (.results r) with
      | .error e => .error e
      | .ok results2 => getGo rest device results2

/-- The aggregator `get(device)`: seeds `results = MonitoringResults()` and
folds every module's run result into it with `+=`. The module list stands for
the sequence returned by `get_monitoring()` discovery. -/
def get {Device : Type} (modules : List (Device → Except PyError MonitoringResults))
    (device : Device) : Except PyError MonitoringResults :=
  getGo modules device MonitoringResults.init

/-! Lemmas shared between the claim theorems. -/

theorem applyLogs_logs (calls : List (LogLevel × String)) (r : MonitoringResults) (s : LogLevel) :
    (applyLogs r calls).logs s = r.logs s ++ (calls.filter fun c => c.1 = s).map Prod.snd := by
  induction calls generalizing r with
  | nil => simp [applyLogs]
  | cons c cs ih =>
    simp only [applyLogs, List.foldl_cons] at *
    rw [ih]
    by_cases h : c.1 = s
    · simp [MonitoringResults.log, h, List.filter_cons]
    · have h2 : ¬ s = c.1 := fun hs => h hs.symm
      simp [MonitoringResults.log, h, h2, List.filter_cons]

theorem add_results_eq (a b : MonitoringResults) :
    a.add (.results b) = .ok (a.combine b) := rfl

/-! Claim theorems. -/

/-- C1: the claim says `log_failure(message)` both records a FAILURE message
and sets the instance's `failed` flag to `True`. On the source, starting from
a fresh `Monitoring` instance and calling `log_failure("unreachable")`, the
message is appended to the FAILURE bucket but `failed` stays `False`: the
method body never assigns `self.failed`, contradicting the method's own
docstring ("Calling this method will automatically mark the report as
failed"). -/
theorem C1_log_failure_leaves_failed_false :
    (Monitoring.init.log_failure "unreachable").failed = false ∧
      (Monitoring.init.log_failure "unreachable")._results.logs LOG_FAILURE =
        ["unreachable"] := by
  constructor
  · rfl
  · simp [Monitoring.init, Monitoring.log_failure, MonitoringResults.init, MonitoringResults.log]

/-- C3: adding the identity value (the Python int `0`) to any results log
returns that log with every bucket unchanged, and adding any value that is
neither the identity nor a `MonitoringResults` raises `ValueError`. -/
theorem C3_add_identity_and_invalid (a : MonitoringResults) :
    a.add (.int 0) = .ok a ∧
      ∀ v : PyValue, v ≠ .int 0 → (∀ r, v ≠ .results r) → a.add v = .error .valueError := by
  refine ⟨rfl, fun v hv hr => ?_⟩
  cases v with
  | int n =>
    have hn : ¬ n = 0 := fun h => hv (by rw [h])
    simp [MonitoringResults.add, hn]
  | str s => rfl
  | none => rfl
  | results r => exact absurd rfl (hr r)

/-- C3 witness: the identity law and the invalid-argument error evaluated on
the empty log and the string value `"x"`. -/
theorem C3_witness :
    MonitoringResults.init.add (.int 0) = .ok MonitoringResults.init ∧
      MonitoringResults.init.add (.str "x") = .error .valueError :=
  ⟨(C3_add_identity_and_invalid MonitoringResults.init).1,
    (C3_add_identity_and_invalid MonitoringResults.init).2 (.str "x")
      (fun h => PyValue.noConfusion h) (fun _ h => PyValue.noConfusion h)⟩

/-- C4: `__add__` between results logs is associative: combining `a` with `b`
and then with `c` yields, for every severity, the same bucket contents as
combining `a` with the combination of `b` and `c`. -/
theorem C4_add_assoc (a b c : MonitoringResults) :
    ((a.add (.results b)).bind fun ab => ab.add (.results c)) =
      ((b.add (.results c)).bind fun bc => a.add (.results bc)) := by
  simp only [add_results_eq, Except.bind]
  refine congrArg Except.ok ?_
  show (a.combine b).combine c = a.combine (b.combine c)
  refine congrArg MonitoringResults.mk (funext fun k => ?_)
  exact List.append_assoc (a.logs k) (b.logs k) (c.logs k)

/-- C6: for every sequence of `log` calls replayed on a fresh results log and
every severity `s`, `get_messages(s)` returns exactly the texts logged at `s`,
in call order, and no text logged at another severity appears in the returned
sequence. -/
theorem C6_get_messages_exact (calls : List (LogLevel × String)) (s : LogLevel) :
    (applyLogs MonitoringResults.init calls).get_messages s =
      (calls.filter fun c => c.1 = s).map Prod.snd := by
  show (applyLogs MonitoringResults.init calls).logs s = _
  rw [applyLogs_logs]
  simp [MonitoringResults.init]

/-- C2: `get_worst_message()` returns the first-logged message of the most
severe non-empty bucket, with precedence FAILURE > WARNING > INFO > OK >
DEFAULT, and returns `(DEFAULT, "")` when every bucket is empty. The second
conjunct states the precedence abstractly: whenever the bucket of `k` starts
with `m` and every strictly more severe bucket is empty, the result is
`(k, m)`. -/
theorem C2_get_worst_message (r : MonitoringResults) :
    ((∀ k, r.logs k = []) → r.get_worst_message = ⟨LOG_DEFAULT, ""⟩) ∧
      ∀ (k : LogLevel) (m : String) (ms : List String), r.logs k = m :: ms →
        (∀ j, k.val < j.val → r.logs j = []) → r.get_worst_message = ⟨k, m⟩ := by
  constructor
  · intro h
    simp [MonitoringResults.get_worst_message, h LOG_FAILURE, h LOG_WARNING, h LOG_INFO,
      h LOG_OK, h LOG_DEFAULT]
  · intro k m ms hk hhi
    cases k with
    | failure =>
      simp [MonitoringResults.get_worst_message, hk]
    | warning =>
      have hF := hhi LOG_FAILURE (by decide)
      simp [MonitoringResults.get_worst_message, hF, hk]
    | info =>
      have hF := hhi LOG_FAILURE (by decide)
      have hW := hhi LOG_WARNING (by decide)
      simp [MonitoringResults.get_worst_message, hF, hW, hk]
    | ok =>
      have hF := hhi LOG_FAILURE (by decide)
      have hW := hhi LOG_WARNING (by decide)
      have hI := hhi LOG_INFO (by decide)
      simp [MonitoringResults.get_worst_message, hF, hW, hI, hk]
    | default =>
      have hF := hhi LOG_FAILURE (by decide)
      have hW := hhi LOG_WARNING (by decide)
      have hI := hhi LOG_INFO (by decide)
      have hO := hhi LOG_OK (by decide)
      simp [MonitoringResults.get_worst_message, hF, hW, hI, hO, hk]

/-- C2 witness: on the log with `log(OK, "ping succeeded")` then
`log(WARNING, "high latency")` then `log(FAILURE, "unreachable")`, the worst
message is the FAILURE one, instantiating the theorem at `k = FAILURE`. -/
theorem C2_witness :
    (((MonitoringResults.init.log LOG_OK "ping succeeded").log LOG_WARNING
          "high latency").log LOG_FAILURE "unreachable").get_worst_message =
      ⟨LOG_FAILURE, "unreachable"⟩ :=
  (C2_get_worst_message _).2 LOG_FAILURE "unreachable" []
    (by simp [MonitoringResults.init, MonitoringResults.log])
    (by intro j hj; cases j <;> simp_all [MonitoringResults.init, MonitoringResults.log,
      LogLevel.val])

theorem getGo_ok {Device : Type} (device : Device) :
    ∀ (modules : List (Device → Except PyError MonitoringResults))
      (rs : List MonitoringResults) (acc : MonitoringResults),
      modules.map (fun m => m device) = rs.map Except.ok →
      getGo modules device acc = .ok (rs.foldl MonitoringResults.combine acc) := by
  intro modules
  induction modules with
  | nil =>
    intro rs acc h
    have : rs = [] := by
      cases rs with
      | nil => rfl
      | cons r rs2 => simp at h
    subst this
    rfl
  | cons m ms ih =>
    intro rs acc h
    cases rs with
    | nil => simp at h
    | cons r rs2 =>
      simp only [List.map_cons, List.cons.injEq] at h
      obtain ⟨h1, h2⟩ := h
      simp only [getGo, h1, add_results_eq]
      rw [ih rs2 (acc.combine r) h2]
      rfl

theorem getGo_error {Device : Type} (device : Device) (e : PyError)
    (f : Device → Except PyError MonitoringResults) (hf : f device = .error e) :
    ∀ (ms1 ms2 : List (Device → Except PyError MonitoringResults)) (acc : MonitoringResults),
      (∀ m ∈ ms1, ∃ r, m device = .ok r) →
      getGo (ms1 ++ f :: ms2) device acc = .error e := by
  intro ms1
  induction ms1 with
  | nil =>
    intro ms2 acc _
    simp [getGo, hf]
  | cons m ms ih =>
    intro ms2 acc hok
    obtain ⟨r, hr⟩ := hok m (by simp)
    simp only [List.cons_append, getGo, hr, add_results_eq]
    exact ih ms2 (acc.combine r) fun m2 hm2 => hok m2 (by simp [hm2])

/-- C5: the aggregator `get(device)` invokes every module's `run(device)` in
list order and folds the returned logs with `__add__` into an accumulator
seeded with a fresh empty log; and when some module's `run` raises while the
modules before it all return logs, `get` propagates that exception and returns
no combined log. -/
theorem C5_get_folds_and_propagates {Device : Type} (device : Device) :
    (∀ (modules : List (Device → Except PyError MonitoringResults))
        (rs : List MonitoringResults),
        modules.map (fun m => m device) = rs.map Except.ok →
        get modules device = .ok (rs.foldl MonitoringResults.combine MonitoringResults.init)) ∧
      ∀ (ms1 ms2 : List (Device → Except PyError MonitoringResults))
        (f : Device → Except PyError MonitoringResults) (e : PyError),
        f device = .error e → (∀ m ∈ ms1, ∃ r, m device = .ok r) →
        get (ms1 ++ f :: ms2) device = .error e := by
  constructor
  · intro modules rs h
    exact getGo_ok device modules rs MonitoringResults.init h
  · intro ms1 ms2 f e hf hok
    exact getGo_error device e f hf ms1 ms2 MonitoringResults.init hok

/-- C5 witness: a two-module aggregation over `Device := Nat` where both
modules return logs folds them into one log, and an aggregation whose second
module raises a runtime error propagates that error. -/
theorem C5_witness :
    get ([fun _ => .ok (MonitoringResults.init.log LOG_OK "fine"),
          fun _ => .ok (MonitoringResults.init.log LOG_WARNING "slow")] :
        List (Nat → Except PyError MonitoringResults)) 0 =
      .ok (MonitoringResults.init.combine
        (MonitoringResults.init.log LOG_OK "fine") |>.combine
          (MonitoringResults.init.log LOG_WARNING "slow")) ∧
      get ([fun _ => .ok (MonitoringResults.init.log LOG_OK "fine"),
            fun _ => .error (.runtimeError "boom")] :
          List (Nat → Except PyError MonitoringResults)) 0 =
        .error (.runtimeError "boom") :=
  ⟨(C5_get_folds_and_propagates 0).1 _
      [MonitoringResults.init.log LOG_OK "fine", MonitoringResults.init.log LOG_WARNING "slow"]
      rfl,
    (C5_get_folds_and_propagates 0).2
      [fun _ => .ok (MonitoringResults.init.log LOG_OK "fine")] []
      (fun _ => .error (.runtimeError "boom")) (.runtimeError "boom") rfl
      (by intro m hm
          simp only [List.mem_singleton] at hm
          exact ⟨MonitoringResults.init.log LOG_OK "fine", by rw [hm]⟩)⟩

theorem mem_insertDesc (x z : MonitoringMessage) :
    ∀ l : List MonitoringMessage, z ∈ insertDesc x l → z = x ∨ z ∈ l := by
  intro l
  induction l with
  | nil => intro h; simp [insertDesc] at h; exact Or.inl h
  | cons y ys ih =>
    intro h
    by_cases hc : y.level.val ≤ x.level.val
    · simp only [insertDesc, if_pos hc, List.mem_cons] at h
      rcases h with h | h | h
      · exact Or.inl h
      · exact Or.inr (by simp [h])
      · exact Or.inr (by simp [h])
    · simp only [insertDesc, if_neg hc, List.mem_cons] at h
      rcases h with h | h
      · exact Or.inr (by simp [h])
      · rcases ih h with h2 | h2
        · exact Or.inl h2
        · exact Or.inr (by simp [h2])

theorem mem_isortDesc (z : MonitoringMessage) :
    ∀ l : List MonitoringMessage, z ∈ isortDesc l → z ∈ l := by
  intro l
  induction l with
  | nil => intro h; exact h
  | cons x xs ih =>
    intro h
    rcases mem_insertDesc x z (isortDesc xs) h with h2 | h2
    · simp [h2]
    · simp [ih h2]

theorem insertDesc_skip (x : MonitoringMessage) :
    ∀ l1 l2 : List MonitoringMessage, (∀ y ∈ l1, x.level.val < y.level.val) →
      insertDesc x (l1 ++ l2) = l1 ++ insertDesc x l2 := by
  intro l1
  induction l1 with
  | nil => intro l2 _; rfl
  | cons y ys ih =>
    intro l2 h
    have hy : ¬ y.level.val ≤ x.level.val := by
      have := h y (by simp)
      omega
    simp only [List.cons_append, insertDesc, if_neg hy, List.append_eq]
    rw [ih l2 fun z hz => h z (by simp [hz])]

theorem insertDesc_cons_of_ge (x : MonitoringMessage) :
    ∀ l : List MonitoringMessage, (∀ y ∈ l, y.level.val ≤ x.level.val) →
      insertDesc x l = x :: l := by
  intro l h
  cases l with
  | nil => rfl
  | cons y ys =>
    have hy : y.level.val ≤ x.level.val := h y (by simp)
    simp [insertDesc, if_pos hy]

theorem isortDesc_append_uniform (v : Nat) :
    ∀ (lo hi : List MonitoringMessage), (∀ y ∈ lo, y.level.val = v) →
      (∀ y ∈ hi, v < y.level.val) →
      isortDesc (lo ++ hi) = isortDesc hi ++ lo := by
  intro lo
  induction lo with
  | nil => intro hi _ _; simp
  | cons d ds ih =>
    intro hi hlo hhi
    have hrec := ih hi (fun y hy => hlo y (by simp [hy])) hhi
    simp only [List.cons_append, isortDesc, List.append_eq, hrec]
    rw [insertDesc_skip d (isortDesc hi) ds
      (fun y hy => by rw [hlo d (by simp)]; exact hhi y (mem_isortDesc y hi hy))]
    rw [insertDesc_cons_of_ge d ds
      (fun y hy => by rw [hlo d (by simp), hlo y (by simp [hy])])]

/-- The bucket of severity `k`, tagged: what `get_all_messages` contributes
for that severity. -/
def tagged (r : MonitoringResults) (k : LogLevel) : List MonitoringMessage :=
  (r.logs k).map fun message => ⟨k, message⟩

theorem tagged_level (r : MonitoringResults) (k : LogLevel) :
    ∀ x ∈ tagged r k, x.level = k := by
  intro x hx
  simp only [tagged, List.mem_map] at hx
  obtain ⟨s, _, rfl⟩ := hx
  rfl

theorem get_all_messages_eq (r : MonitoringResults) :
    r.get_all_messages =
      tagged r LOG_FAILURE ++ (tagged r LOG_WARNING ++ (tagged r LOG_INFO ++
        (tagged r LOG_OK ++ tagged r LOG_DEFAULT))) := by
  have hflat : (levelKeys.flatMap fun level =>
      (r.logs level).map fun message => MonitoringMessage.mk level message) =
      tagged r LOG_DEFAULT ++ (tagged r LOG_OK ++ (tagged r LOG_INFO ++
        (tagged r LOG_WARNING ++ (tagged r LOG_FAILURE ++ [])))) := by
    simp [levelKeys, tagged, List.flatMap]
  show isortDesc _ = _
  rw [hflat]
  have memval : ∀ (j : LogLevel) (x : MonitoringMessage), x ∈ tagged r j →
      x.level.val = j.val := fun j x hx => by rw [tagged_level r j x hx]
  rw [isortDesc_append_uniform 0 (tagged r LOG_DEFAULT) _
    (fun y hy => memval LOG_DEFAULT y hy)
    (by intro y hy
        simp only [List.mem_append, List.not_mem_nil, or_false] at hy
        rcases hy with h | h | h | h
        · rw [memval LOG_OK y h]; decide
        · rw [memval LOG_INFO y h]; decide
        · rw [memval LOG_WARNING y h]; decide
        · rw [memval LOG_FAILURE y h]; decide)]
  rw [isortDesc_append_uniform 1 (tagged r LOG_OK) _
    (fun y hy => memval LOG_OK y hy)
    (by intro y hy
        simp only [List.mem_append, List.not_mem_nil, or_false] at hy
        rcases hy with h | h | h
        · rw [memval LOG_INFO y h]; decide
        · rw [memval LOG_WARNING y h]; decide
        · rw [memval LOG_FAILURE y h]; decide)]
  rw [isortDesc_append_uniform 2 (tagged r LOG_INFO) _
    (fun y hy => memval LOG_INFO y hy)
    (by intro y hy
        simp only [List.mem_append, List.not_mem_nil, or_false] at hy
        rcases hy with h | h
        · rw [memval LOG_WARNING y h]; decide
        · rw [memval LOG_FAILURE y h]; decide)]
  rw [isortDesc_append_uniform 3 (tagged r LOG_WARNING) _
    (fun y hy => memval LOG_WARNING y hy)
    (by intro y hy
        simp only [List.mem_append, List.not_mem_nil, or_false] at hy
        rw [memval LOG_FAILURE y hy]; decide)]
  have hF : isortDesc (tagged r LOG_FAILURE ++ []) = isortDesc [] ++ tagged r LOG_FAILURE :=
    isortDesc_append_uniform 4 (tagged r LOG_FAILURE) []
      (fun y hy => memval LOG_FAILURE y hy) (by intro y hy; exact absurd hy (List.not_mem_nil y))
  rw [hF]
  simp [isortDesc]

theorem count_map_tag (j k : LogLevel) (s : String) (l : List String) :
    ((l.map fun t => MonitoringMessage.mk j t).count ⟨k, s⟩) =
      if j = k then l.count s else 0 := by
  induction l with
  | nil => simp
  | cons t ts ih =>
    by_cases hjk : j = k
    · subst hjk
      by_cases hts : t = s
      · subst hts; simp [List.count_cons, ih]
      · simp [List.count_cons, ih, hts]
    · simp [List.count_cons, ih, hjk]

theorem filter_map_tag (j k : LogLevel) (l : List String) :
    ((l.map fun t => MonitoringMessage.mk j t).filter fun m => m.level == k) =
      if j = k then l.map fun t => MonitoringMessage.mk j t else [] := by
  induction l with
  | nil => simp
  | cons t ts ih =>
    by_cases hjk : j = k
    · subst hjk; simp [List.filter_cons, ih]
    · simp [List.filter_cons, ih, hjk]

theorem pairwise_const_level (v : Nat) :
    ∀ l : List MonitoringMessage, (∀ y ∈ l, y.level.val = v) →
      List.Pairwise (fun x y => y.level.val ≤ x.level.val) l := by
  intro l
  induction l with
  | nil => intro _; exact List.Pairwise.nil
  | cons x xs ih =>
    intro h
    refine List.Pairwise.cons (fun y hy => ?_) (ih fun y hy => h y (by simp [hy]))
    rw [h x (by simp), h y (by simp [hy])]

/-- C7: `get_all_messages()` returns the logged messages ordered by descending
severity (most severe first), every logged message appearing exactly once with
its own severity tag (the count of each tagged message in the output equals
the count of its text in its severity bucket), and whenever the FAILURE bucket
is non-empty the first element of the output is a FAILURE-tagged message. -/
theorem C7_get_all_messages (r : MonitoringResults) :
    List.Pairwise (fun x y => y.level.val ≤ x.level.val) r.get_all_messages ∧
      (∀ (k : LogLevel) (s : String),
        r.get_all_messages.count ⟨k, s⟩ = (r.logs k).count s) ∧
      ∀ (m : String) (ms : List String), r.logs LOG_FAILURE = m :: ms →
        ∃ t, r.get_all_messages.head? = some ⟨LOG_FAILURE, t⟩ := by
  have memval : ∀ (j : LogLevel) (x : MonitoringMessage), x ∈ tagged r j →
      x.level.val = j.val := fun j x hx => by rw [tagged_level r j x hx]
  refine ⟨?_, ?_, ?_⟩
  · rw [get_all_messages_eq]
    refine List.pairwise_append.mpr ⟨pairwise_const_level 4 _ (memval LOG_FAILURE), ?_, ?_⟩
    · refine List.pairwise_append.mpr ⟨pairwise_const_level 3 _ (memval LOG_WARNING), ?_, ?_⟩
      · refine List.pairwise_append.mpr ⟨pairwise_const_level 2 _ (memval LOG_INFO), ?_, ?_⟩
        · refine List.pairwise_append.mpr ⟨pairwise_const_level 1 _ (memval LOG_OK),
            pairwise_const_level 0 _ (memval LOG_DEFAULT), ?_⟩
          intro a ha b hb
          rw [memval LOG_OK a ha, memval LOG_DEFAULT b hb]
          decide
        · intro a ha b hb
          rw [memval LOG_INFO a ha]
          simp only [List.mem_append] at hb
          rcases hb with h | h
          · rw [memval LOG_OK b h]; decide
          · rw [memval LOG_DEFAULT b h]; decide
      · intro a ha b hb
        rw [memval LOG_WARNING a ha]
        simp only [List.mem_append] at hb
        rcases hb with h | h | h
        · rw [memval LOG_INFO b h]; decide
        · rw [memval LOG_OK b h]; decide
        · rw [memval LOG_DEFAULT b h]; decide
    · intro a ha b hb
      rw [memval LOG_FAILURE a ha]
      simp only [List.mem_append] at hb
      rcases hb with h | h | h | h
      · rw [memval LOG_WARNING b h]; decide
      · rw [memval LOG_INFO b h]; decide
      · rw [memval LOG_OK b h]; decide
      · rw [memval LOG_DEFAULT b h]; decide
  · intro k s
    rw [get_all_messages_eq]
    simp only [tagged, List.count_append, count_map_tag]
    cases k <;> simp
  · intro m ms h
    refine ⟨m, ?_⟩
    rw [get_all_messages_eq]
    simp [tagged, h]

/-- C7 witness: on a log holding an OK message and then the FAILURE message
"unreachable", `get_all_messages()` starts with a FAILURE-tagged message. -/
theorem C7_witness :
    ∃ t, ((MonitoringResults.init.log LOG_OK "ping succeeded").log LOG_FAILURE
        "unreachable").get_all_messages.head? = some ⟨LOG_FAILURE, t⟩ :=
  (C7_get_all_messages _).2.2 "unreachable" []
    (by simp [MonitoringResults.init, MonitoringResults.log])

/-- C10: within each severity, `get_all_messages()` preserves insertion order:
the subsequence of the output tagged with severity `s` is exactly the bucket
of `s`, in call order, each text tagged with `s` — the descending sort is
stable. -/
theorem C10_get_all_messages_stable (r : MonitoringResults) (s : LogLevel) :
    (r.get_all_messages.filter fun m => m.level == s) =
      (r.logs s).map fun t => MonitoringMessage.mk s t := by
  rw [get_all_messages_eq]
  simp only [tagged, List.filter_append, filter_map_tag]
  cases s <;> simp

/-! Store model of the in-place mutation performed by `__add__`. A Python
list is a reference into a store; each `MonitoringResults` instance with the
five standard buckets holds one reference per severity. Distinct instances
built by `__init__` hold pairwise distinct references, and `__add__` between
five-bucket instances only takes the `self.logs[key] += other.logs[key]`
branch, which extends the list behind the reference of `self` in place. -/

abbrev Ref := Nat

abbrev Store := Ref → List String

/-- The `logs` dict of a five-bucket `MonitoringResults` instance, as one
list reference per severity key. -/
structure MRRef where
  refs : LogLevel → Ref

/-- The store effect of `MonitoringResults.__add__(other)` when both dicts
hold the five standard keys: for every key of `other` (in dict order) the
bucket list of `self` is extended in place with the bucket list of `other`. -/
def addStore (store : Store) (a b : MRRef) : Store :=
  levelKeys.foldl
    (fun st k => Function.update st (a.refs k) (st (a.refs k) ++ st (b.refs k))) store

/-- The full result of `__add__` in the store model: the mutated store, and
`self` returned unchanged as the result object. -/
def addRef (store : Store) (a b : MRRef) : Store × MRRef :=
  (addStore store a b, a)

theorem addStore_foldl_untouched (a b : MRRef) (r : Ref) :
    ∀ (ks : List LogLevel) (st : Store), (∀ k ∈ ks, r ≠ a.refs k) →
      (ks.foldl
        (fun st k => Function.update st (a.refs k) (st (a.refs k) ++ st (b.refs k))) st) r =
        st r := by
  intro ks
  induction ks with
  | nil => intro st _; rfl
  | cons k ks2 ih =>
    intro st h
    rw [List.foldl_cons, ih _ fun k2 hk2 => h k2 (by simp [hk2])]
    exact Function.update_noteq (h k (by simp)) _ _

/-- C8: when both `MonitoringResults` instances hold the five standard
severity buckets and are distinct objects (their bucket lists are disjoint
references), `a + b` mutates only the buckets of `a`: every store cell that
is not a bucket of `a` — in particular every bucket of `b` — is unchanged,
and the object returned is `a` itself. -/
theorem C8_add_frame (store : Store) (a b : MRRef)
    (h : ∀ k k' : LogLevel, a.refs k ≠ b.refs k') :
    (∀ r : Ref, (∀ k, r ≠ a.refs k) → addStore store a b r = store r) ∧
      (∀ k, addStore store a b (b.refs k) = store (b.refs k)) ∧
      (addRef store a b).2 = a := by
  refine ⟨fun r hr => ?_, fun k => ?_, rfl⟩
  · exact addStore_foldl_untouched a b r levelKeys store fun k _ => hr k
  · exact addStore_foldl_untouched a b (b.refs k) levelKeys store
      fun k2 _ => fun he => h k2 k he.symm

/-- C8 witness: with the buckets of `a` at cells 0..4 and the buckets of `b`
at cells 5..9 of a concrete store, combining leaves every bucket of `b`
unchanged and returns `a`. -/
theorem C8_witness :
    (addStore (fun _ => ["seed"]) ⟨fun k => k.val⟩ ⟨fun k => k.val + 5⟩
        ((⟨fun k => k.val + 5⟩ : MRRef).refs LOG_OK) =
      (fun _ => ["seed"]) ((⟨fun k => k.val + 5⟩ : MRRef).refs LOG_OK)) ∧
      (addRef (fun _ => ["seed"]) ⟨fun k => k.val⟩ ⟨fun k => k.val + 5⟩).2 =
        ⟨fun k => k.val⟩ :=
  ⟨(C8_add_frame (fun _ => ["seed"]) ⟨fun k => k.val⟩ ⟨fun k => k.val + 5⟩
      (by decide)).2.1 LOG_OK,
    (C8_add_frame (fun _ => ["seed"]) ⟨fun k => k.val⟩ ⟨fun k => k.val + 5⟩
      (by decide)).2.2⟩

/-- C9: `run` never resets the instance's run-scoped state: running a cached
`Monitoring` instance a second time returns the instance's own `_results` log
again (the same log, not a fresh one), and that log's buckets hold the
messages of the first run followed by the messages of the second run —
messages accumulate across `run` invocations. -/
theorem C9_run_accumulates {Device : Type}
    (getImpl : Device → Except PyError (List (LogLevel × String))) (t1 t2 : Device)
    (calls1 calls2 : List (LogLevel × String)) (m1 m2 : Monitoring)
    (r1 r2 : MonitoringResults)
    (h1 : getImpl t1 = .ok calls1) (h2 : getImpl t2 = .ok calls2)
    (hr1 : Monitoring.init.run getImpl t1 = .ok (m1, r1))
    (hr2 : m1.run getImpl t2 = .ok (m2, r2)) :
    r1 = m1._results ∧ r2 = m2._results ∧
      (∀ lvl, r1.logs lvl = (calls1.filter fun c => c.1 = lvl).map Prod.snd) ∧
      ∀ lvl, r2.logs lvl =
        r1.logs lvl ++ (calls2.filter fun c => c.1 = lvl).map Prod.snd := by
  simp only [Monitoring.run, h1] at hr1
  injection hr1 with hpair1
  rw [Prod.mk.injEq] at hpair1
  obtain ⟨hm1, hr1res⟩ := hpair1
  subst hm1
  subst hr1res
  simp only [Monitoring.run, h2] at hr2
  injection hr2 with hpair2
  rw [Prod.mk.injEq] at hpair2
  obtain ⟨hm2, hr2res⟩ := hpair2
  subst hm2
  subst hr2res
  refine ⟨rfl, rfl, ?_, ?_⟩
  · intro lvl
    simp [applyLogs_logs, Monitoring.init, MonitoringResults.init]
  · intro lvl
    simp [applyLogs_logs]

/-- A concrete subclass `get` implementation for the C9 witness: it logs one
OK message when run against device `0` and one WARNING message otherwise. -/
def exGet : Nat → Except PyError (List (LogLevel × String)) :=
  fun t => if t = 0 then .ok [(LOG_OK, "ok run one")] else .ok [(LOG_WARNING, "warn run two")]

/-- The instance state after the first `run` of the C9 witness. -/
def exM1 : Monitoring :=
  { active_test := none, failed := false,
    _results := applyLogs MonitoringResults.init [(LOG_OK, "ok run one")] }

/-- The instance state after the second `run` of the C9 witness. -/
def exM2 : Monitoring :=
  { active_test := none, failed := false,
    _results := applyLogs exM1._results [(LOG_WARNING, "warn run two")] }

/-- C9 witness: running a cached instance against device 0 and then against
device 1 leaves the OK message of the first run in the log returned by the
second run, with the WARNING of the second run appended after it. -/
theorem C9_witness :
    exM1._results.logs LOG_OK = ["ok run one"] ∧
      exM2._results.logs LOG_WARNING =
        exM1._results.logs LOG_WARNING ++ ["warn run two"] := by
  have h := C9_run_accumulates exGet 0 1 [(LOG_OK, "ok run one")]
    [(LOG_WARNING, "warn run two")] exM1 exM2 exM1._results exM2._results rfl rfl rfl rfl
  exact ⟨by simpa using h.2.2.1 LOG_OK, by simpa using h.2.2.2 LOG_WARNING⟩

end monitoring
